import Mathlib

/-!
Shallow embedding of the deep-deblurring model's loss library
(src/deblurrer/model/losses.py), of the dataset pixel normalization
(src/deblurrer/scripts/datasets/generate_dataset.py, `transform`) and of the
image-saving denormalization (src/model/deblurrer/model/callbacks.py,
`SaveImageToDisk.save_image`), together with a model of the training
orchestrator described by the design document (the `DeblurGAN` composite
model is declared in src/deblurrer/model/init but its module is not part
of the sources).

Conventions of the embedding:
* tensor values are rationals (exact arithmetic standing for float32);
* a prediction tensor is a flattened `List ℚ`; an image batch keeps its
  last axis explicit as `List (List ℚ)` so that the axis -1 reduction of
  keras `mean_squared_error` is rendered faithfully;
* `tf.random.uniform` is an explicit stream of draws with a cursor
  (`RNG`), each call consuming as many draws as the requested shape holds;
* `tf.reduce_mean` over a nonempty tensor is sum divided by length; over
  an empty tensor TensorFlow produces a float NaN without raising, which
  the embedding renders as the extra value `FVal.nan` where a claim
  depends on it (`feature_reconstruction_loss`).
-/

namespace Deblurrer

/-- `tf.reduce_mean` over a flattened tensor, as exact rational arithmetic
(the empty tensor gives the junk value `0/0 = 0`; the NaN-aware variant is
`freduce_mean`). -/
def reduce_mean (xs : List ℚ) : ℚ := xs.sum / (xs.length : ℚ)

/-- A float value that may be NaN: `tf.reduce_mean` of an empty tensor is
NaN, and no TensorFlow error is raised when that happens. -/
inductive FVal where
  | nan : FVal
  | val : ℚ → FVal
  deriving DecidableEq

/-- `tf.reduce_mean`, keeping the NaN produced on an empty tensor. -/
def freduce_mean (xs : List ℚ) : FVal :=
  if xs.length = 0 then FVal.nan else FVal.val (xs.sum / (xs.length : ℚ))

/-- Float addition with NaN propagation. -/
def FVal.add : FVal → FVal → FVal
  | FVal.nan, _ => FVal.nan
  | _, FVal.nan => FVal.nan
  | FVal.val a, FVal.val b => FVal.val (a + b)

/-- Float scaling with NaN propagation. -/
def FVal.smul (c : ℚ) : FVal → FVal
  | FVal.nan => FVal.nan
  | FVal.val a => FVal.val (c * a)

/-- Collapse a float value to a rational for contexts that assume it is
finite (the spec-modelled orchestrator). -/
def FVal.toRat : FVal → ℚ
  | FVal.nan => 0
  | FVal.val a => a

/-- The random source behind `tf.random.uniform`: a stream of draws and a
cursor; every call consumes draws at the cursor and advances it, so no
draw is ever stored or reused by a later call. -/
structure RNG where
  stream : ℕ → ℚ
  pos : ℕ

/-- `tf.random.uniform(shape=n, minval=-1, maxval=1)`: the next `n` draws
of the stream, and the advanced source. -/
def randUniform (n : ℕ) (g : RNG) : List ℚ × RNG :=
  ((List.range n).map (fun i => g.stream (g.pos + i)), RNG.mk g.stream (g.pos + n))

/-- The soft-label factor of `ragan_ls_loss`:
`soft_factor = tf.ones_like(preds) + 0.1 * tf.random.uniform(shape, -1, 1)`,
as a function of the uniform draws. -/
def soft_factor (noise : List ℚ) : List ℚ :=
  noise.map (fun u => 1 + (1 / 10) * u)

/-- Core of `ragan_ls_loss` after the cast of `real_preds` to the dtype of
`preds` produced the numeric flag `r`:

    first_side  = (r * soft_factor) * (preds - 1)^2
    second_side = ((1 - r) * soft_factor) * (preds + 1)^2
    return tf.reduce_mean(first_side + second_side)
-/
def ragan_ls_loss_core (preds : List ℚ) (r : ℚ) (noise : List ℚ) : ℚ :=
  let sf := soft_factor noise
  let first_side := List.zipWith (fun s p => r * s * (p - 1) ^ 2) sf preds
  let second_side := List.zipWith (fun s p => (1 - r) * s * (p + 1) ^ 2) sf preds
  reduce_mean (List.zipWith (fun a b => a + b) first_side second_side)

/-- `ragan_ls_loss(preds, real_preds)` with its boolean flag, the uniform
draws passed explicitly (`tf.constant(True/False, dtype) = 1.0/0.0`). -/
def ragan_ls_loss (preds : List ℚ) (real_preds : Bool) (noise : List ℚ) : ℚ :=
  ragan_ls_loss_core preds (if real_preds then 1 else 0) noise

/-- A Python value arriving as the `real_preds` argument.  The first line
of `ragan_ls_loss` is `real_preds = tf.constant(real_preds, dtype=preds.dtype)`:
`tf.constant` silently converts booleans and numbers to the float dtype and
raises only for values it cannot convert (strings, None). -/
inductive PyVal where
  | pybool : Bool → PyVal
  | pyint : ℤ → PyVal
  | pyfloat : ℚ → PyVal
  | pystr : String → PyVal
  | pynone : PyVal
  deriving DecidableEq

/-- `tf.constant(v, dtype=float)`: numeric values convert, others raise. -/
def tf_constant : PyVal → Except String ℚ
  | PyVal.pybool b => Except.ok (if b then 1 else 0)
  | PyVal.pyint n => Except.ok (n : ℚ)
  | PyVal.pyfloat q => Except.ok q
  | PyVal.pystr _ => Except.error "TypeError: cannot convert str to float dtype"
  | PyVal.pynone => Except.error "ValueError: cannot convert None to a Tensor"

/-- `ragan_ls_loss` as called with an arbitrary Python `real_preds` value:
the `tf.constant` cast either raises or yields a numeric flag that the rest
of the function consumes unchecked. -/
def ragan_ls_loss_py (preds : List ℚ) (real_preds : PyVal) (noise : List ℚ) :
    Except String ℚ :=
  (tf_constant real_preds).map (fun r => ragan_ls_loss_core preds r noise)

/-- `ragan_ls_loss` drawing its noise from the explicit random source:
the call consumes exactly `preds.length` fresh draws. -/
def ragan_ls_loss_rng (preds : List ℚ) (real_preds : Bool) (g : RNG) : ℚ × RNG :=
  let drawn := randUniform preds.length g
  (ragan_ls_loss preds real_preds drawn.1, drawn.2)

/-- The Prediction Pair produced by the double-scale discriminator:
the dict with keys `local` and `global`. -/
structure PredPair where
  predLocal : List ℚ
  predGlobal : List ℚ

/-- `discriminator_loss(preds, real_preds)`:

    loss_l = ragan_ls_loss(preds[local], real_preds)
    loss_g = ragan_ls_loss(preds[global], real_preds)
    return loss_l + loss_g

each inner call drawing its own fresh noise from the random source. -/
def discriminator_loss (preds : PredPair) (real_preds : Bool) (g : RNG) : ℚ × RNG :=
  let resL := ragan_ls_loss_rng preds.predLocal real_preds g
  let resG := ragan_ls_loss_rng preds.predGlobal real_preds resL.2
  (resL.1 + resG.1, resG.2)

/-- The output tensor of the feature (loss) network: its static shape and
its flattened data.  A well-formed tensor has `data.length = shape.prod`. -/
structure FTensor where
  shape : List ℕ
  data : List ℚ

/-- `feature_reconstruction_loss(gen_images, sharp_images, loss_network)`:

    gen_output = loss_network(gen_images, training=False)
    sharp_output = loss_network(sharp_images, training=False)
    loss = tf.square(gen_output - sharp_output)
    loss = loss / cast(prod(shape(gen_output)[1:]))
    return tf.reduce_mean(loss)

The network is a pure function (training=False).  The final mean is the
NaN-aware one: on a degenerate (empty) feature tensor TensorFlow's
`reduce_mean` silently yields NaN. -/
def feature_reconstruction_loss (gen_images sharp_images : List (List ℚ))
    (loss_network : List (List ℚ) → FTensor) : FVal :=
  let gen_output := loss_network gen_images
  let sharp_output := loss_network sharp_images
  let diff := List.zipWith (fun a b => a - b) gen_output.data sharp_output.data
  let sq := diff.map (fun x => x ^ 2)
  let denom : ℚ := (((gen_output.shape.drop 1).prod : ℕ) : ℚ)
  let divided := sq.map (fun x => x / denom)
  freduce_mean divided

/-- `tf.keras.losses.mean_squared_error(y_true, y_pred)`: the mean of the
squared difference over the last axis, one value per remaining index. -/
def mean_squared_error (y_true y_pred : List (List ℚ)) : List ℚ :=
  List.zipWith (fun t p => reduce_mean (List.zipWith (fun a b => (a - b) ^ 2) t p))
    y_true y_pred

/-- `generator_loss(gen_images, sharp_images, fake_pred, loss_network)`:

    lp = tf.reduce_mean(mean_squared_error(sharp_images, gen_images))
    lx = feature_reconstruction_loss(gen_images, sharp_images, loss_network)
    ladv = discriminator_loss(fake_pred, real_preds=True)
    return 0.5 * lp + 0.006 * lx + 0.01 * ladv
-/
def generator_loss (gen_images sharp_images : List (List ℚ)) (fake_pred : PredPair)
    (loss_network : List (List ℚ) → FTensor) (g : RNG) : FVal × RNG :=
  let lp := reduce_mean (mean_squared_error sharp_images gen_images)
  let lx := feature_reconstruction_loss gen_images sharp_images loss_network
  let resAdv := discriminator_loss fake_pred true g
  (FVal.add (FVal.val ((1 / 2) * lp))
    (FVal.add (FVal.smul (6 / 1000) lx) (FVal.val ((1 / 100) * resAdv.1))),
   resAdv.2)

/-- Parameters of the two trainable networks of the composite model. -/
structure TrainState where
  genParams : List ℚ
  discParams : List ℚ

/-- Modelled from the spec: the Training Orchestrator's discriminator
update (steps 1-4 of 4.5); the `DeblurGAN` composite model's train step is
declared in the package but its module is not among the sources.  The fake
batch is computed once from the current generator parameters and enters
the differentiated loss as a constant (the detached pass of step 3); the
loss differentiated by the abstract gradient oracle `gradWrt` is
`discriminator_loss(real preds, True) + discriminator_loss(fake preds, False)`
as a function of the discriminator parameters alone, and the optimizer
step `applyOpt` touches only the discriminator parameters. -/
def disc_update_step (gen : List ℚ → List (List ℚ) → List (List ℚ))
    (disc : List ℚ → List (List ℚ) → PredPair)
    (gradWrt : (List ℚ → ℚ) → List ℚ → List ℚ)
    (applyOpt : List ℚ → List ℚ → List ℚ)
    (st : TrainState) (sharp blur : List (List ℚ)) (g : RNG) : TrainState × RNG :=
  let fake := gen st.genParams blur
  let dLoss : List ℚ → ℚ := fun dp =>
    let resReal := discriminator_loss (disc dp sharp) true g
    let resFake := discriminator_loss (disc dp fake) false resReal.2
    resReal.1 + resFake.1
  let resReal := discriminator_loss (disc st.discParams sharp) true g
  let resFake := discriminator_loss (disc st.discParams fake) false resReal.2
  (TrainState.mk st.genParams
    (applyOpt st.discParams (gradWrt dLoss st.discParams)),
   resFake.2)

/-- Modelled from the spec: the Training Orchestrator's generator update
(step 5 of 4.5).  The fake prediction pair is recomputed
gradient-connected to the generator, the discriminator is frozen at its
already-updated parameters, and the optimizer step touches only the
generator parameters. -/
def gen_update_step (gen : List ℚ → List (List ℚ) → List (List ℚ))
    (disc : List ℚ → List (List ℚ) → PredPair)
    (loss_network : List (List ℚ) → FTensor)
    (gradWrt : (List ℚ → ℚ) → List ℚ → List ℚ)
    (applyOpt : List ℚ → List ℚ → List ℚ)
    (st : TrainState) (sharp blur : List (List ℚ)) (g : RNG) : TrainState × RNG :=
  let gLoss : List ℚ → ℚ := fun gp =>
    let fake := gen gp blur
    let fakePred := disc st.discParams fake
    (generator_loss fake sharp fakePred loss_network g).1.toRat
  let res := generator_loss (gen st.genParams blur) sharp
    (disc st.discParams (gen st.genParams blur)) loss_network g
  (TrainState.mk (applyOpt st.genParams (gradWrt gLoss st.genParams))
    st.discParams,
   res.2)

/-- Modelled from the spec: one full training step of the orchestrator —
the discriminator update followed by the generator update, in that order,
each with its own gradient computation. -/
def train_step (gen : List ℚ → List (List ℚ) → List (List ℚ))
    (disc : List ℚ → List (List ℚ) → PredPair)
    (loss_network : List (List ℚ) → FTensor)
    (gradWrt : (List ℚ → ℚ) → List ℚ → List ℚ)
    (applyOpt : List ℚ → List ℚ → List ℚ)
    (st : TrainState) (sharp blur : List (List ℚ)) (g : RNG) : TrainState × RNG :=
  let resD := disc_update_step gen disc gradWrt applyOpt st sharp blur g
  gen_update_step gen disc loss_network gradWrt applyOpt resD.1 sharp blur resD.2

/-- The pixel normalization of the dataset `transform`:
`images = (images - 127.0) / 128.0`. -/
def transform_normalize (x : ℚ) : ℚ := (x - 127) / 128

/-- The pixel denormalization of `SaveImageToDisk.save_image`:
`image = (image * 128) + 127`. -/
def save_image_denormalize (y : ℚ) : ℚ := y * 128 + 127

/-- Concrete generator instance used by witness statements: identity on
the blur batch. -/
def witGen : List ℚ → List (List ℚ) → List (List ℚ) := fun _ b => b

/-- Concrete discriminator instance used by witness statements. -/
def witDisc : List ℚ → List (List ℚ) → PredPair := fun dp _ => PredPair.mk dp dp

/-- Concrete feature network instance used by witness statements. -/
def witNet : List (List ℚ) → FTensor := fun _ => FTensor.mk [1] [0]

/-- Concrete gradient oracle instance used by witness statements. -/
def witGrad : (List ℚ → ℚ) → List ℚ → List ℚ := fun f x => [f x]

/-- Concrete optimizer step instance used by witness statements. -/
def witOpt : List ℚ → List ℚ → List ℚ := fun p q => p ++ q

/-- Concrete parameter state instance used by witness statements. -/
def witState : TrainState := TrainState.mk [1] [2]

/-- Concrete random source instance used by witness statements. -/
def witRNG : RNG := RNG.mk (fun _ => 0) 0

/-! ## Helper lemmas -/

theorem zipWith_add_fuse (f k : ℚ → ℚ → ℚ) :
    ∀ xs ys : List ℚ,
      List.zipWith (fun a b => a + b) (List.zipWith f xs ys) (List.zipWith k xs ys)
        = List.zipWith (fun s p => f s p + k s p) xs ys := by
  intro xs
  induction xs with
  | nil => intro ys; rfl
  | cons x xs ih =>
    intro ys
    cases ys with
    | nil => rfl
    | cons y ys => simp [List.zipWith, ih ys]

theorem ragan_ls_loss_core_eq (preds : List ℚ) (r : ℚ) (noise : List ℚ) :
    ragan_ls_loss_core preds r noise
      = reduce_mean (List.zipWith
          (fun s p => r * s * (p - 1) ^ 2 + (1 - r) * s * (p + 1) ^ 2)
          (soft_factor noise) preds) := by
  show reduce_mean (List.zipWith (fun a b => a + b)
      (List.zipWith (fun s p => r * s * (p - 1) ^ 2) (soft_factor noise) preds)
      (List.zipWith (fun s p => (1 - r) * s * (p + 1) ^ 2) (soft_factor noise) preds))
    = _
  rw [zipWith_add_fuse]

theorem zipWith_congr_fun {f k : ℚ → ℚ → ℚ} (h : ∀ a b, f a b = k a b)
    (xs ys : List ℚ) : List.zipWith f xs ys = List.zipWith k xs ys := by
  have : f = k := by funext a b; exact h a b
  rw [this]

theorem sum_zip_comb_nonneg (r : ℚ) (hr : 0 ≤ r ∧ r ≤ 1) :
    ∀ noise preds : List ℚ, (∀ u ∈ noise, -1 ≤ u) →
      0 ≤ (List.zipWith
        (fun s p => r * s * (p - 1) ^ 2 + (1 - r) * s * (p + 1) ^ 2)
        (soft_factor noise) preds).sum := by
  intro noise
  induction noise with
  | nil => intro preds _; simp [soft_factor]
  | cons u noise ih =>
    intro preds h
    cases preds with
    | nil => simp [soft_factor]
    | cons p preds =>
      have hu : -1 ≤ u := h u (List.mem_cons_self u noise)
      have hs : 0 ≤ 1 + (1 / 10) * u := by linarith
      have hrest : 0 ≤ (List.zipWith
          (fun s p => r * s * (p - 1) ^ 2 + (1 - r) * s * (p + 1) ^ 2)
          (soft_factor noise) preds).sum :=
        ih preds (fun v hv => h v (List.mem_cons_of_mem u hv))
      have hhead : 0 ≤ r * (1 + (1 / 10) * u) * (p - 1) ^ 2
          + (1 - r) * (1 + (1 / 10) * u) * (p + 1) ^ 2 := by
        have h1 : 0 ≤ r * (1 + (1 / 10) * u) * (p - 1) ^ 2 :=
          mul_nonneg (mul_nonneg hr.1 hs) (sq_nonneg _)
        have h2 : 0 ≤ (1 - r) * (1 + (1 / 10) * u) * (p + 1) ^ 2 :=
          mul_nonneg (mul_nonneg (by linarith [hr.2]) hs) (sq_nonneg _)
        linarith
      simpa [soft_factor, List.zipWith] using add_nonneg hhead hrest

/-! ## Claims about the relativistic loss -/

/-- C3: `ragan_ls_loss(preds, real_preds)` is the mean over all elements of
`r * soft_factor * (preds - 1)^2 + (1 - r) * soft_factor * (preds + 1)^2`
with `r = 1.0` for `real_preds=True` and `r = 0.0` for `real_preds=False`;
with `real_preds=True` only the real branch survives and with
`real_preds=False` only the fake branch does. -/
theorem ragan_ls_loss_spec (preds noise : List ℚ) (real_preds : Bool) :
    ragan_ls_loss preds real_preds noise
      = reduce_mean (List.zipWith
          (fun s p => (if real_preds then (1 : ℚ) else 0) * s * (p - 1) ^ 2
            + (1 - if real_preds then (1 : ℚ) else 0) * s * (p + 1) ^ 2)
          (soft_factor noise) preds)
    ∧ ragan_ls_loss preds true noise
      = reduce_mean (List.zipWith (fun s p => s * (p - 1) ^ 2)
          (soft_factor noise) preds)
    ∧ ragan_ls_loss preds false noise
      = reduce_mean (List.zipWith (fun s p => s * (p + 1) ^ 2)
          (soft_factor noise) preds) := by
  refine ⟨ragan_ls_loss_core_eq preds _ noise, ?_, ?_⟩
  · rw [ragan_ls_loss, if_pos rfl, ragan_ls_loss_core_eq]
    congr 1
    exact zipWith_congr_fun (fun a b => by ring) _ _
  · rw [ragan_ls_loss, if_neg Bool.false_ne_true, ragan_ls_loss_core_eq]
    congr 1
    exact zipWith_congr_fun (fun a b => by ring) _ _

/-- C5: for every prediction tensor, both flag values and every draw of the
soft-label noise (each uniform draw lying in [-1, 1]), the RaGAN-LS loss is
non-negative. -/
theorem ragan_ls_loss_nonneg (preds : List ℚ) (real_preds : Bool)
    (noise : List ℚ) (h : ∀ u ∈ noise, -1 ≤ u ∧ u ≤ 1) :
    0 ≤ ragan_ls_loss preds real_preds noise := by
  rw [ragan_ls_loss, ragan_ls_loss_core_eq]
  have hr : 0 ≤ (if real_preds then (1 : ℚ) else 0)
      ∧ (if real_preds then (1 : ℚ) else 0) ≤ 1 := by
    cases real_preds <;> simp
  have hsum := sum_zip_comb_nonneg _ hr noise preds (fun u hu => (h u hu).1)
  exact div_nonneg hsum (Nat.cast_nonneg _)

/-- C5 witness. -/
theorem ragan_ls_loss_nonneg_witness :
    0 ≤ ragan_ls_loss [5, -3] true [0, 1 / 2] :=
  ragan_ls_loss_nonneg [5, -3] true [0, 1 / 2]
    (by
      intro u hu
      simp only [List.mem_cons, List.not_mem_nil, or_false] at hu
      rcases hu with rfl | rfl <;> norm_num)

/-- C4: each call of `ragan_ls_loss` builds a soft-label factor with one
entry per element of `preds`, each entry equal to 1 plus a tenth of a fresh
uniform draw and hence lying in [0.9, 1.1]; the call consumes exactly
`preds.length` draws from the random source, advancing its cursor so that
no draw is stored or reused by a later call. -/
theorem soft_factor_fresh (preds : List ℚ) (real_preds : Bool) (g : RNG)
    (h : ∀ i, i < preds.length →
      -1 ≤ g.stream (g.pos + i) ∧ g.stream (g.pos + i) ≤ 1) :
    (soft_factor (randUniform preds.length g).1).length = preds.length
    ∧ (∀ s ∈ soft_factor (randUniform preds.length g).1,
        9 / 10 ≤ s ∧ s ≤ 11 / 10)
    ∧ (ragan_ls_loss_rng preds real_preds g).2.pos = g.pos + preds.length := by
  refine ⟨by simp [soft_factor, randUniform], ?_, rfl⟩
  intro s hs
  simp only [soft_factor, randUniform, List.mem_map, List.mem_range] at hs
  obtain ⟨u, ⟨i, hi, hu⟩, hsu⟩ := hs
  obtain ⟨h1, h2⟩ := h i hi
  rw [hu] at h1 h2
  subst hsu
  constructor <;> linarith

/-- C4 witness. -/
theorem soft_factor_fresh_witness :
    (soft_factor (randUniform (List.length [(3 : ℚ), 4]) (RNG.mk (fun _ => 1 / 2) 0)).1).length
        = List.length [(3 : ℚ), 4]
    ∧ (∀ s ∈ soft_factor (randUniform (List.length [(3 : ℚ), 4]) (RNG.mk (fun _ => 1 / 2) 0)).1,
        9 / 10 ≤ s ∧ s ≤ 11 / 10)
    ∧ (ragan_ls_loss_rng [(3 : ℚ), 4] true (RNG.mk (fun _ => 1 / 2) 0)).2.pos
        = (RNG.mk (fun _ => (1 : ℚ) / 2) 0).pos + List.length [(3 : ℚ), 4] :=
  soft_factor_fresh [3, 4] true (RNG.mk (fun _ => 1 / 2) 0)
    (by intro i hi; exact ⟨by norm_num, by norm_num⟩)

/-- C6: the discriminator total loss is exactly the sum of the per-scale
relativistic losses on the `local` and `global` predictions, each inner
call consuming the draws the implementation hands it (the local call first,
then the global call on the advanced source); no cross-scale interaction
and equal weight on both scales. -/
theorem discriminator_loss_spec (preds : PredPair) (real_preds : Bool) (g : RNG) :
    (discriminator_loss preds real_preds g).1
      = (ragan_ls_loss_rng preds.predLocal real_preds g).1
        + (ragan_ls_loss_rng preds.predGlobal real_preds
            (ragan_ls_loss_rng preds.predLocal real_preds g).2).1 := rfl

/-! ## Claims about the perceptual loss -/

theorem zipWith_sub_self (l : List ℚ) :
    List.zipWith (fun a b => a - b) l l = List.replicate l.length 0 := by
  induction l with
  | nil => rfl
  | cons x l ih => simp [List.zipWith, ih, List.replicate_succ]

/-- C7: for any tensor and any feature network whose output on it is
well-formed and non-degenerate (at least one element), the feature
reconstruction loss of a batch against itself is exactly zero: the network
is a pure function (`training=False`), so both forward passes produce the
same embedding. -/
theorem feature_reconstruction_loss_self (x : List (List ℚ))
    (loss_network : List (List ℚ) → FTensor)
    (hwf : (loss_network x).data.length = (loss_network x).shape.prod)
    (hnd : (loss_network x).shape.prod ≠ 0) :
    feature_reconstruction_loss x x loss_network = FVal.val 0 := by
  have hn : (loss_network x).data.length ≠ 0 := by rw [hwf]; exact hnd
  simp [feature_reconstruction_loss, zipWith_sub_self, freduce_mean, hn,
    List.sum_replicate]

/-- C7 witness. -/
theorem feature_reconstruction_loss_self_witness :
    feature_reconstruction_loss [[1, 2]] [[1, 2]]
      (fun _ => FTensor.mk [1, 2] [3, 4]) = FVal.val 0 :=
  feature_reconstruction_loss_self [[1, 2]] (fun _ => FTensor.mk [1, 2] [3, 4])
    rfl (by decide)

/-- C8 counterexample: on a feature network whose output is degenerate
(per-sample element count zero, here shape [2, 0]), the implementation
does not fail with a division-by-zero or invalid-configuration error — it
silently returns the float NaN produced by `tf.reduce_mean` over the empty
tensor, contradicting the claimed error behavior. -/
theorem frl_degenerate_counterexample :
    feature_reconstruction_loss [[0]] [[0]] (fun _ => FTensor.mk [2, 0] [])
      = FVal.nan := rfl

/-- C8 amended: when the feature network's output is degenerate (the
product of its non-batch dimensions is zero, so the well-formed output
tensor is empty), `feature_reconstruction_loss` raises no error: the
element-wise division by the zero element count acts on no element at all,
and the final mean over the empty tensor silently yields NaN. -/
theorem frl_degenerate_nan (gen_images sharp_images : List (List ℚ))
    (loss_network : List (List ℚ) → FTensor)
    (hwf : (loss_network gen_images).data.length
      = (loss_network gen_images).shape.prod)
    (hdeg : ((loss_network gen_images).shape.drop 1).prod = 0) :
    feature_reconstruction_loss gen_images sharp_images loss_network
      = FVal.nan := by
  have hdata : (loss_network gen_images).data = [] := by
    have hprod : (loss_network gen_images).shape.prod = 0 := by
      cases hshape : (loss_network gen_images).shape with
      | nil => rw [hshape] at hdeg; simp at hdeg
      | cons d rest =>
        rw [hshape] at hdeg
        simp only [List.drop_succ_cons, List.drop_zero] at hdeg
        rw [List.prod_cons, hdeg, mul_zero]
    rw [hprod] at hwf
    exact List.length_eq_zero.mp hwf
  simp [feature_reconstruction_loss, hdata, freduce_mean]

/-- C8 witness for the amended claim. -/
theorem frl_degenerate_nan_witness :
    feature_reconstruction_loss [[(5 : ℚ)]] [[7]]
      (fun _ => FTensor.mk [3, 0] []) = FVal.nan :=
  frl_degenerate_nan [[5]] [[7]] (fun _ => FTensor.mk [3, 0] []) rfl rfl

/-! ## Claims about the real_preds contract -/

/-- C9 counterexample: calling `ragan_ls_loss` with the non-boolean
`real_preds = 0.5` does not fail — `tf.constant(0.5, dtype)` converts it
silently and the loss proceeds with both branches half-active, returning a
value, contrary to the claimed invalid-argument error. -/
theorem ragan_nonbool_counterexample :
    ragan_ls_loss_py [0] (PyVal.pyfloat (1 / 2)) [0] = Except.ok 1 := by
  simp only [ragan_ls_loss_py, tf_constant, Except.map, ragan_ls_loss_core,
    soft_factor, reduce_mean, List.map_cons, List.map_nil,
    List.zipWith_cons_cons, List.zipWith_nil_right, List.zipWith_nil_left,
    List.sum_cons, List.sum_nil, List.length_cons, List.length_nil]
  norm_num

/-- C9 amended: the `real_preds` argument is only fed through
`tf.constant(real_preds, dtype=preds.dtype)`; booleans become the flags
1.0/0.0, numeric non-boolean values (ints, floats) are silently cast and
the computation proceeds with the resulting numeric flag, and only values
that cannot be converted to the float dtype (strings, None) raise an
error. -/
theorem ragan_ls_loss_py_cast (preds noise : List ℚ) :
    (∀ b, ragan_ls_loss_py preds (PyVal.pybool b) noise
      = Except.ok (ragan_ls_loss preds b noise))
    ∧ (∀ q, ragan_ls_loss_py preds (PyVal.pyfloat q) noise
      = Except.ok (ragan_ls_loss_core preds q noise))
    ∧ (∀ n : ℤ, ragan_ls_loss_py preds (PyVal.pyint n) noise
      = Except.ok (ragan_ls_loss_core preds (n : ℚ) noise))
    ∧ (∀ s, ∃ e, ragan_ls_loss_py preds (PyVal.pystr s) noise
      = Except.error e)
    ∧ (∃ e, ragan_ls_loss_py preds PyVal.pynone noise = Except.error e) :=
  ⟨fun _ => rfl, fun _ => rfl, fun _ => rfl, fun _ => ⟨_, rfl⟩, ⟨_, rfl⟩⟩

/-! ## Claim about pixel normalization -/

/-- C10: the save_image denormalization `y * 128 + 127` is the exact
inverse of the dataset normalization `(x - 127) / 128`, and the
normalization maps every uint8 pixel value 0..255 into
[-127/128, 1] ⊆ [-1, 1]. -/
theorem normalize_denormalize_inverse :
    (∀ x : ℚ, save_image_denormalize (transform_normalize x) = x)
    ∧ (∀ n : ℕ, n ≤ 255 →
        -(127 / 128) ≤ transform_normalize (n : ℚ)
          ∧ transform_normalize (n : ℚ) ≤ 1)
    ∧ ((-1 : ℚ) ≤ -(127 / 128) ∧ (1 : ℚ) ≤ 1) := by
  refine ⟨?_, ?_, by norm_num, le_refl 1⟩
  · intro x
    unfold save_image_denormalize transform_normalize
    ring
  · intro n h
    have h255 : (n : ℚ) ≤ 255 := by exact_mod_cast h
    have hn : (0 : ℚ) ≤ (n : ℚ) := Nat.cast_nonneg n
    have ht : transform_normalize (n : ℚ)
        = (n : ℚ) * (1 / 128) - 127 / 128 := by
      unfold transform_normalize; ring
    rw [ht]
    constructor <;> linarith

/-- C10 witness. -/
theorem normalize_denormalize_inverse_witness :
    save_image_denormalize (transform_normalize 200) = 200
    ∧ (-(127 / 128) ≤ transform_normalize ((255 : ℕ) : ℚ)
        ∧ transform_normalize ((255 : ℕ) : ℚ) ≤ 1) :=
  ⟨normalize_denormalize_inverse.1 200,
   normalize_denormalize_inverse.2.1 255 (le_refl 255)⟩

/-! ## The generator composite loss -/

theorem mean_squared_error_eq_map (y_true y_pred : List (List ℚ)) :
    mean_squared_error y_true y_pred
      = (List.zipWith (fun t p => List.zipWith (fun a b => (a - b) ^ 2) t p)
          y_true y_pred).map reduce_mean := by
  rw [List.map_zipWith]
  rfl

theorem zipWith_sq_join (c : ℕ) :
    ∀ xs ys : List (List ℚ),
      (∀ r ∈ xs, r.length = c) → (∀ r ∈ ys, r.length = c) →
      List.zipWith (fun a b => (a - b) ^ 2) xs.flatten ys.flatten
        = (List.zipWith (fun t p => List.zipWith (fun a b => (a - b) ^ 2) t p)
            xs ys).flatten := by
  intro xs
  induction xs with
  | nil => intro ys _ _; simp
  | cons x xs ih =>
    intro ys hx hy
    cases ys with
    | nil => simp
    | cons y ys =>
      have hxy : x.length = y.length := by
        rw [hx x (List.mem_cons_self x xs), hy y (List.mem_cons_self y ys)]
      simp only [List.flatten_cons, List.zipWith_cons_cons]
      rw [List.zipWith_append _ _ _ _ _ hxy,
        ih ys (fun r hr => hx r (List.mem_cons_of_mem x hr))
          (fun r hr => hy r (List.mem_cons_of_mem y hr))]

theorem sum_map_reduce_mean (c : ℕ) :
    ∀ rows : List (List ℚ), (∀ r ∈ rows, r.length = c) →
      (rows.map reduce_mean).sum = rows.flatten.sum / (c : ℚ) := by
  intro rows
  induction rows with
  | nil => intro _; simp
  | cons r rows ih =>
    intro h
    have hr : r.length = c := h r (List.mem_cons_self r rows)
    have hrest := ih (fun q hq => h q (List.mem_cons_of_mem r hq))
    simp only [List.map_cons, List.sum_cons, List.flatten_cons, List.sum_append]
    rw [hrest, add_div]
    simp [reduce_mean, hr]

theorem length_join_const (c : ℕ) :
    ∀ rows : List (List ℚ), (∀ r ∈ rows, r.length = c) →
      rows.flatten.length = rows.length * c := by
  intro rows
  induction rows with
  | nil => intro _; simp
  | cons r rows ih =>
    intro h
    simp only [List.flatten_cons, List.length_append, List.length_cons]
    rw [h r (List.mem_cons_self r rows),
      ih (fun q hq => h q (List.mem_cons_of_mem r hq))]
    ring

theorem reduce_mean_map_eq_join (c : ℕ) (rows : List (List ℚ))
    (h : ∀ r ∈ rows, r.length = c) :
    reduce_mean (rows.map reduce_mean) = reduce_mean rows.flatten := by
  show (rows.map reduce_mean).sum / ((rows.map reduce_mean).length : ℚ)
    = rows.flatten.sum / (rows.flatten.length : ℚ)
  rw [sum_map_reduce_mean c rows h, List.length_map, length_join_const c rows h,
    div_div]
  congr 1
  push_cast
  ring

theorem zipWith_rows_length (c : ℕ) :
    ∀ xs ys : List (List ℚ),
      (∀ r ∈ xs, r.length = c) → (∀ r ∈ ys, r.length = c) →
      ∀ r ∈ List.zipWith (fun t p => List.zipWith (fun a b => (a - b) ^ 2) t p)
          xs ys, r.length = c := by
  intro xs
  induction xs with
  | nil => intro ys _ _ r hr; simp at hr
  | cons x xs ih =>
    intro ys hx hy r hr
    cases ys with
    | nil => simp at hr
    | cons y ys =>
      simp only [List.zipWith_cons_cons, List.mem_cons] at hr
      rcases hr with rfl | hr
      · rw [List.length_zipWith, hx x (List.mem_cons_self x xs),
          hy y (List.mem_cons_self y ys)]
        exact Nat.min_self c
      · exact ih ys (fun q hq => hx q (List.mem_cons_of_mem x hq))
          (fun q hq => hy q (List.mem_cons_of_mem y hq)) r hr

/-- C1: for equal-shape image batches (rows of a common length `c`), the
generator composite loss is exactly
`0.5 * Lp + 0.006 * Lx + 0.01 * Ladv`, where `Lp` is the mean squared
error between the sharp and generated images taken over all dimensions,
`Lx` is the feature reconstruction loss, and `Ladv` is the discriminator
loss of the fake predictions evaluated with `real_preds=True` (the
real-branch `(preds - 1)^2` term deliberately activated). -/
theorem generator_loss_spec (gen_images sharp_images : List (List ℚ))
    (fake_pred : PredPair) (loss_network : List (List ℚ) → FTensor) (g : RNG)
    (c : ℕ) (hs : ∀ r ∈ sharp_images, r.length = c)
    (hg : ∀ r ∈ gen_images, r.length = c) (lx : ℚ)
    (hx : feature_reconstruction_loss gen_images sharp_images loss_network
      = FVal.val lx) :
    (generator_loss gen_images sharp_images fake_pred loss_network g).1
      = FVal.val ((1 / 2) * reduce_mean (List.zipWith (fun a b => (a - b) ^ 2)
            sharp_images.flatten gen_images.flatten)
          + (6 / 1000) * lx
          + (1 / 100) * (discriminator_loss fake_pred true g).1) := by
  have hlp : reduce_mean (mean_squared_error sharp_images gen_images)
      = reduce_mean (List.zipWith (fun a b => (a - b) ^ 2)
          sharp_images.flatten gen_images.flatten) := by
    rw [mean_squared_error_eq_map,
      reduce_mean_map_eq_join c _ (zipWith_rows_length c sharp_images gen_images hs hg),
      zipWith_sq_join c sharp_images gen_images hs hg]
  simp only [generator_loss, hx, hlp, FVal.smul, FVal.add]
  congr 1
  ring

/-- C1 witness. -/
theorem generator_loss_spec_witness :
    (generator_loss [[0, 1]] [[1, 2]] (PredPair.mk [0] [0])
        (fun _ => FTensor.mk [1, 1] [0]) (RNG.mk (fun _ => 0) 0)).1
      = FVal.val ((1 / 2) * reduce_mean (List.zipWith (fun a b => (a - b) ^ 2)
            (List.flatten [[(1 : ℚ), 2]]) (List.flatten [[(0 : ℚ), 1]]))
          + (6 / 1000) * 0
          + (1 / 100) * (discriminator_loss (PredPair.mk [0] [0]) true
              (RNG.mk (fun _ => 0) 0)).1) :=
  generator_loss_spec [[0, 1]] [[1, 2]] (PredPair.mk [0] [0])
    (fun _ => FTensor.mk [1, 1] [0]) (RNG.mk (fun _ => 0) 0) 2
    (by intro r hr; simp only [List.mem_singleton] at hr; subst hr; rfl)
    (by intro r hr; simp only [List.mem_singleton] at hr; subst hr; rfl)
    0 (by norm_num [feature_reconstruction_loss, freduce_mean])

/-! ## The training orchestrator -/

/-- C2: in one full training step, the discriminator update leaves every
generator parameter unchanged and the generator update leaves every
discriminator parameter unchanged; the discriminator's gradient
computation sees the generator only through the detached fake batch
(replacing the generator by any function producing the same fake batch
changes nothing), and the generator's gradient computation sees the
discriminator only through its frozen forward function at the
already-updated parameters — so the two updates never share a gradient
computation. -/
theorem train_step_isolation
    (gen gen' : List ℚ → List (List ℚ) → List (List ℚ))
    (disc disc' : List ℚ → List (List ℚ) → PredPair)
    (loss_network : List (List ℚ) → FTensor)
    (gradWrt : (List ℚ → ℚ) → List ℚ → List ℚ)
    (applyOpt : List ℚ → List ℚ → List ℚ)
    (st : TrainState) (sharp blur : List (List ℚ)) (g : RNG) :
    (disc_update_step gen disc gradWrt applyOpt st sharp blur g).1.genParams
      = st.genParams
    ∧ (train_step gen disc loss_network gradWrt applyOpt st sharp blur g).1.discParams
      = (disc_update_step gen disc gradWrt applyOpt st sharp blur g).1.discParams
    ∧ (gen' st.genParams blur = gen st.genParams blur →
        (disc_update_step gen' disc gradWrt applyOpt st sharp blur g).1.discParams
          = (disc_update_step gen disc gradWrt applyOpt st sharp blur g).1.discParams)
    ∧ ((∀ imgs, disc' st.discParams imgs = disc st.discParams imgs) →
        (gen_update_step gen disc' loss_network gradWrt applyOpt st sharp blur g).1.genParams
          = (gen_update_step gen disc loss_network gradWrt applyOpt st sharp blur g).1.genParams) := by
  refine ⟨rfl, rfl, ?_, ?_⟩
  · intro h
    simp only [disc_update_step, h]
  · intro h
    have hfun : (fun gp => (generator_loss (gen gp blur) sharp
          (disc' st.discParams (gen gp blur)) loss_network g).1.toRat)
        = (fun gp => (generator_loss (gen gp blur) sharp
          (disc st.discParams (gen gp blur)) loss_network g).1.toRat) := by
      funext gp
      rw [h]
    simp only [gen_update_step, hfun]

/-- C2 witness. -/
theorem train_step_isolation_witness :
    (disc_update_step witGen witDisc witGrad witOpt witState
        [[3]] [[4]] witRNG).1.genParams = witState.genParams
    ∧ (train_step witGen witDisc witNet witGrad witOpt witState
        [[3]] [[4]] witRNG).1.discParams
      = (disc_update_step witGen witDisc witGrad witOpt witState
          [[3]] [[4]] witRNG).1.discParams
    ∧ (disc_update_step witGen witDisc witGrad witOpt witState
        [[3]] [[4]] witRNG).1.discParams
      = (disc_update_step witGen witDisc witGrad witOpt witState
          [[3]] [[4]] witRNG).1.discParams
    ∧ (gen_update_step witGen witDisc witNet witGrad witOpt witState
        [[3]] [[4]] witRNG).1.genParams
      = (gen_update_step witGen witDisc witNet witGrad witOpt witState
          [[3]] [[4]] witRNG).1.genParams :=
  ⟨(train_step_isolation witGen witGen witDisc witDisc witNet witGrad witOpt
      witState [[3]] [[4]] witRNG).1,
   (train_step_isolation witGen witGen witDisc witDisc witNet witGrad witOpt
      witState [[3]] [[4]] witRNG).2.1,
   (train_step_isolation witGen witGen witDisc witDisc witNet witGrad witOpt
      witState [[3]] [[4]] witRNG).2.2.1 rfl,
   (train_step_isolation witGen witGen witDisc witDisc witNet witGrad witOpt
      witState [[3]] [[4]] witRNG).2.2.2 (fun _ => rfl)⟩

end Deblurrer
